import Mathlib

/-!
Verification of the FileOrganizer script (`organize.py`).

Strings of the Python program are modelled as lists of Unicode code points
(`List Nat`); `strCodes` turns a Lean string literal into that form.  Case
folding models `str.lower()` on the ASCII range (code points outside A-Z are
case-less here, which covers every filename and pattern the claims mention).
Filesystem interaction is modelled by an explicit effect trace (`Effect`) and
a per-file environment (`MoveEnv`) supplying the oracle answers the real
filesystem would give: whether the destination file exists, whether `mkdir`
or `shutil.move` raises, and the current wall-clock time.
-/

/-- A Python string, as its sequence of Unicode code points. -/
abbrev Str := List Nat

/-- Code points of a Lean string literal. -/
def strCodes (s : String) : Str := s.toList.map Char.toNat

/-- ASCII case folding of one code point, modelling `str.lower()`. -/
def lowerCode (n : Nat) : Nat := if 65 ≤ n ∧ n ≤ 90 then n + 32 else n

/-- `s.lower()` for a whole string. -/
def lower (s : Str) : Str := s.map lowerCode

/-- Index of the last `'.'` (code point 46) in a string, i.e. `s.rfind('.')`
restricted to a found result; `none` models the result `-1`. -/
def rfindDot : Str → Option Nat
  | [] => none
  | c :: cs =>
    match rfindDot cs with
    | some i => some (i + 1)
    | none => if c = 46 then some 0 else none

/-- `pathlib.PurePath(name).suffix`: the substring from the last dot, but only
when that dot is neither the first nor the last character of the name. -/
def pySuffix (name : Str) : Str :=
  match rfindDot name with
  | some i => if 0 < i ∧ i + 1 < name.length then name.drop i else []
  | none => []

/-- `pathlib.PurePath(name).stem`: the name without `pySuffix`. -/
def pyStem (name : Str) : Str :=
  match rfindDot name with
  | some i => if 0 < i ∧ i + 1 < name.length then name.take i else name
  | none => name

/-- One classification rule of `config.json`. -/
structure Rule where
  name : Str
  type : Str
  patterns : List Str
  output_folder : Str
deriving DecidableEq

/-- One iteration of the rule loop in `classify_file`: does `rule` match the
(already lower-cased) full name, stem and extension? -/
def ruleMatches (name stem ext : Str) (r : Rule) : Bool :=
  if r.type = strCodes "extension" then
    (r.patterns.map lower).contains ext
  else if r.type = strCodes "prefix" then
    (r.patterns.map lower).any
      (fun p => List.isPrefixOf p stem || List.isPrefixOf p name)
  else
    false

/-- The rule loop of `classify_file`, returning the first match. -/
def classifyGo (name stem ext : Str) : List Rule → Option (Str × Str)
  | [] => none
  | r :: rest =>
    if ruleMatches name stem ext r then some (r.output_folder, r.name)
    else classifyGo name stem ext rest

/-- `classify_file(filename, rules)`: `some (output_folder, rule_name)` for the
first matching rule, `none` for the `(None, None)` "unmatched" result. -/
def classify_file (filename : Str) (rules : List Rule) : Option (Str × Str) :=
  classifyGo (lower filename) (lower (pyStem filename)) (lower (pySuffix filename)) rules

/-- Whether a single rule matches a file, with the normalisations of
`classify_file` applied. -/
def ruleMatchesFile (filename : Str) (r : Rule) : Bool :=
  ruleMatches (lower filename) (lower (pyStem filename)) (lower (pySuffix filename)) r

/-- A wall-clock instant, as delivered by `datetime.now()`. -/
structure DateTime where
  year : Nat
  month : Nat
  day : Nat
  hour : Nat
  minute : Nat
  second : Nat
deriving DecidableEq

/-- Code point of the decimal digit character for `n % 10`. -/
def tsDigit (n : Nat) : Nat := 48 + n % 10

/-- `datetime.strftime("%Y%m%d_%H%M%S")`, modelled for years below 10000
(zero-padded four-digit year, two digits for every other field, `'_'` = 95). -/
def fmtTs (t : DateTime) : Str :=
  [tsDigit (t.year / 1000), tsDigit (t.year / 100), tsDigit (t.year / 10), tsDigit t.year,
   tsDigit (t.month / 10), tsDigit t.month,
   tsDigit (t.day / 10), tsDigit t.day,
   95,
   tsDigit (t.hour / 10), tsDigit t.hour,
   tsDigit (t.minute / 10), tsDigit t.minute,
   tsDigit (t.second / 10), tsDigit t.second]

/-- `dir / name` path joining (47 = `'/'`). -/
def joinPath (d n : Str) : Str := d ++ 47 :: n

/-- Lines 70-75 of `move_file`: the destination path, after the duplicate-file
check.  `destEx` answers `dest.exists()`, `t` is `datetime.now()`. -/
def resolveDest (destDir srcName : Str) (overwrite destEx : Bool) (t : DateTime) : Str :=
  if destEx && !overwrite then
    joinPath destDir (pyStem srcName ++ 95 :: fmtTs t ++ pySuffix srcName)
  else
    joinPath destDir srcName

/-- A filesystem mutation performed by the program. -/
inductive Effect where
  | mkdir (dir : Str)
  | move (src : Str) (dst : Str)
deriving DecidableEq

/-- Filesystem/clock oracle for one `move_file` call. -/
structure MoveEnv where
  destExists : Bool
  mkdirFails : Bool
  mkdirErr : Str
  moveFails : Bool
  moveErr : Str
  now : DateTime
deriving DecidableEq

/-- The value a completed (non-raising) `move_file` call produces, together
with the filesystem mutations it performed. -/
structure MoveResult where
  success : Bool
  msg : Str
  effects : List Effect
deriving DecidableEq

/-- The `[DRY-RUN] {src}  ->  {folder}/` message. -/
def dryRunMsg (src folder : Str) : Str :=
  strCodes "[DRY-RUN] " ++ src ++ strCodes "  ->  " ++ folder ++ strCodes "/"

/-- The `  [OK]  {src}  ->  {folder}/` message. -/
def okMsg (src folder : Str) : Str :=
  strCodes "  [OK]  " ++ src ++ strCodes "  ->  " ++ folder ++ strCodes "/"

/-- The `  [ERR] {src}  ->  이동 실패 ({e})` message. -/
def errMsg (src e : Str) : Str :=
  strCodes "  [ERR] " ++ src ++ strCodes "  ->  이동 실패 (" ++ e ++ strCodes ")"

/-- `move_file(src, dest_dir, overwrite, dry_run)`.  The `mkdir` call is the
first statement and sits outside the `try` block, so its failure is an
uncaught exception, modelled by `Except.error`; a `shutil.move` failure is
caught and yields `success = false`. -/
def move_file (srcName destDir : Str) (overwrite dry_run : Bool) (env : MoveEnv) :
    Except Str MoveResult :=
  if env.mkdirFails then
    .error env.mkdirErr
  else if dry_run then
    .ok ⟨true, dryRunMsg srcName destDir, [Effect.mkdir destDir]⟩
  else if env.moveFails then
    .ok ⟨false, errMsg srcName env.moveErr, [Effect.mkdir destDir]⟩
  else
    .ok ⟨true, okMsg srcName destDir,
      [Effect.mkdir destDir,
       Effect.move srcName (resolveDest destDir srcName overwrite env.destExists env.now)]⟩

/-- Effects of a `move_file` call (none when it raised). -/
def moveEffects : Except Str MoveResult → List Effect
  | .ok r => r.effects
  | .error _ => []

/-- The `settings` block of `config.json`, after defaulting. -/
structure Settings where
  overwrite : Bool
  dry_run : Bool
  unmatched_folder : Str
deriving DecidableEq

/-- The folder `main` sends a file to: the classified folder, or
`unmatched_folder` for the `(None, None)` result. -/
def classifiedFolder (rules : List Rule) (settings : Settings) (f : Str) : Str :=
  match classify_file f rules with
  | none => settings.unmatched_folder
  | some (folder, _) => folder

/-- Accumulated session state: per-folder success counts (`defaultdict(int)`),
error messages, files processed so far, filesystem effects, whether the
"nothing to do" message was printed, and whether the final report ran. -/
structure SessionOutcome where
  stats : List (Str × Nat)
  errors : List Str
  processed : List Str
  effects : List Effect
  noFilesMsg : Bool
  reported : Bool
deriving DecidableEq

/-- `stats[folder] += 1` on an insertion-ordered association list. -/
def incr : List (Str × Nat) → Str → List (Str × Nat)
  | [], k => [(k, 1)]
  | (k', v) :: rest, k =>
    if k' = k then (k', v + 1) :: rest else (k', v) :: incr rest k

/-- One iteration of the per-file loop in `main` (lines 153-170). -/
def stepFile (rules : List Rule) (settings : Settings) (envOf : Str → MoveEnv)
    (st : SessionOutcome) (file : Str) : Except Str SessionOutcome :=
  match move_file file (classifiedFolder rules settings file) settings.overwrite
      settings.dry_run (envOf file) with
  | .error e => .error e
  | .ok r =>
    if r.success then
      .ok { st with stats := incr st.stats (classifiedFolder rules settings file),
                    processed := st.processed ++ [file],
                    effects := st.effects ++ r.effects }
    else
      .ok { st with errors := st.errors ++ [r.msg],
                    processed := st.processed ++ [file],
                    effects := st.effects ++ r.effects }

/-- The per-file loop of `main` over a list of files. -/
def runFiles (rules : List Rule) (settings : Settings) (envOf : Str → MoveEnv) :
    List Str → SessionOutcome → Except Str SessionOutcome
  | [], st => .ok st
  | f :: fs, st =>
    match stepFile rules settings envOf st f with
    | .error e => .error e
    | .ok st' => runFiles rules settings envOf fs st'

/-- Lexicographic order on code-point strings, as Python compares names. -/
def strLe : Str → Str → Bool
  | [], _ => true
  | _ :: _, [] => false
  | a :: as, b :: bs => if a < b then true else if a = b then strLe as bs else false

/-- Insertion into a sorted list. -/
def insertSorted (x : Str) : List Str → List Str
  | [] => [x]
  | y :: ys => if strLe x y then x :: y :: ys else y :: insertSorted x ys

/-- `sorted(files)`. -/
def sortStr (l : List Str) : List Str := l.foldr insertSorted []

/-- `main` from the candidate list onward: early exit on an empty list
(printing the "nothing to do" info line, producing no report), otherwise the
sorted per-file loop followed by `print_report`.  An uncaught exception from
`move_file` propagates as `Except.error`. -/
def runSession (files : List Str) (rules : List Rule) (settings : Settings)
    (envOf : Str → MoveEnv) : Except Str SessionOutcome :=
  if files = [] then
    .ok ⟨[], [], [], [], true, false⟩
  else
    match runFiles rules settings envOf (sortStr files) ⟨[], [], [], [], false, false⟩ with
    | .error e => .error e
    | .ok st => .ok { st with reported := true }

/-- A directory entry as seen by `WORK_DIR.iterdir()`. -/
structure DirEntry where
  name : Str
  isFile : Bool
deriving DecidableEq

/-- The `SKIP_FILES` constant. -/
def SKIP_FILES : List Str := [strCodes "organize.py", strCodes "config.json"]

/-- The candidate-list comprehension of `main` (lines 135-138): regular files
only, skip-list excluded. -/
def collectFiles (entries : List DirEntry) : List Str :=
  (entries.filter (fun e => e.isFile && !(SKIP_FILES.contains e.name))).map
    (fun e => e.name)

/-- `total = sum(stats.values())` in `print_report`. -/
def reportTotal (stats : List (Str × Nat)) : Nat :=
  (stats.map (fun p => p.2)).sum

/-- The three totals `print_report` displays: total processed, success,
failure.  Python subtraction is modelled on `Int`. -/
def reportNumbers (stats : List (Str × Nat)) (errors : List Str) : Int × Int × Int :=
  ((reportTotal stats : Int), (reportTotal stats : Int) - errors.length, (errors.length : Int))

/-- Project an `Except` session result to its outcome (junk on error). -/
def getOutcome : Except Str SessionOutcome → SessionOutcome
  | .ok st => st
  | .error _ => ⟨[], [], [], [], false, false⟩

/-- Modelled from the spec: the extension rule the claim states — "the
lower-cased substring from the last `.` (including the dot), and the empty
string if the filename contains no dot" — for comparison against the code's
`pySuffix`. -/
def specExtC4 (name : Str) : Str :=
  match rfindDot name with
  | some i => lower (name.drop i)
  | none => []

/-- A character-wise map that only alters letter case: its composition with
lower-casing is lower-casing itself. -/
def CaseEq (f : Nat → Nat) : Prop := ∀ n, lowerCode (f n) = lowerCode n

/-- Two rule lists that differ only in the case of their patterns. -/
def RulesCaseVariant (rules rules' : List Rule) : Prop :=
  List.Forall₂
    (fun r r' => r.name = r'.name ∧ r.type = r'.type ∧
      r.output_folder = r'.output_folder ∧
      r.patterns.map lower = r'.patterns.map lower)
    rules rules'

/-- ASCII upper-casing of one code point, a concrete case alteration. -/
def upperCode (n : Nat) : Nat := if 97 ≤ n ∧ n ≤ 122 then n - 32 else n

/-- Fixture instant 2025-01-02 03:04:05. -/
def t0 : DateTime := ⟨2025, 1, 2, 3, 4, 5⟩

/-- Oracle: destination free, nothing fails. -/
def envOk : MoveEnv := ⟨false, false, [], false, [], t0⟩

/-- Oracle: `mkdir` raises `Permission denied`. -/
def envMk : MoveEnv := ⟨false, true, strCodes "Permission denied", false, [], t0⟩

/-- Oracle: `shutil.move` raises `No space`. -/
def envMv : MoveEnv := ⟨false, false, [], true, strCodes "No space", t0⟩

/-- Oracle family for the C3 session: only `b.txt`'s move fails. -/
def envOfB (f : Str) : MoveEnv := if f = strCodes "b.txt" then envMv else envOk

/-- Default settings: overwrite off, dry-run off, unmatched folder `others`. -/
def settings0 : Settings := ⟨false, false, strCodes "others"⟩

/-- Rule `{extension, [".txt"], -> "docs"}` of the C6 example. -/
def c6r1 : Rule := ⟨strCodes "r1", strCodes "extension", [strCodes ".txt"], strCodes "docs"⟩

/-- Rule `{prefix, ["report"], -> "reports"}` of the C6 example. -/
def c6r2 : Rule := ⟨strCodes "r2", strCodes "prefix", [strCodes "report"], strCodes "reports"⟩

/-- A rule with an empty pattern list. -/
def emptyPatRule : Rule := ⟨strCodes "e", strCodes "extension", [], strCodes "docs"⟩

/-- A rule with an unrecognised type. -/
def unknownTypeRule : Rule :=
  ⟨strCodes "u", strCodes "regex", [strCodes ".txt"], strCodes "docs"⟩

/-- Extension rule with lower-case pattern `.jpg`. -/
def rjpg : Rule := ⟨strCodes "r", strCodes "extension", [strCodes ".jpg"], strCodes "images"⟩

/-- The same rule with upper-case pattern `.JPG`. -/
def rJPG : Rule := ⟨strCodes "r", strCodes "extension", [strCodes ".JPG"], strCodes "images"⟩

/-- The C3 session: three files, the middle one's move fails. -/
def sessionC3 : Except Str SessionOutcome :=
  runSession [strCodes "a.txt", strCodes "b.txt", strCodes "c.txt"] [] settings0 envOfB

/-- Directory listing fixture for C10. -/
def entsC10 : List DirEntry :=
  [⟨strCodes "organize.py", true⟩, ⟨strCodes "a.txt", true⟩, ⟨strCodes "sub", false⟩]

/-- The uncaught exception carried by a failed session, if any. -/
def sessionError : Except Str SessionOutcome → Option Str
  | .error e => some e
  | .ok _ => none

/-! ## Helper lemmas -/

/-- A rule with an empty pattern list or an unrecognised type never matches. -/
theorem ruleMatches_false_of (name stem ext : Str) (r : Rule)
    (h : r.patterns = [] ∨
      (r.type ≠ strCodes "extension" ∧ r.type ≠ strCodes "prefix")) :
    ruleMatches name stem ext r = false := by
  rcases h with h | ⟨h1, h2⟩
  · simp only [ruleMatches, h, List.map_nil]
    split_ifs <;> simp
  · simp [ruleMatches, h1, h2]

/-- The rule loop returns the first matching rule, `List.find?` style. -/
theorem classifyGo_eq_find (name stem ext : Str) (rules : List Rule) :
    classifyGo name stem ext rules =
      (rules.find? (ruleMatches name stem ext)).map
        (fun r => (r.output_folder, r.name)) := by
  induction rules with
  | nil => rfl
  | cons r rest ih =>
    simp only [classifyGo]
    by_cases h : ruleMatches name stem ext r = true
    · rw [if_pos h, List.find?_cons_of_pos _ h]
      rfl
    · rw [if_neg h, List.find?_cons_of_neg _ h, ih]

/-! ## Claim theorems -/

/-- Claim C9: an empty candidate file set terminates the session at once with
the "nothing to do" message: no file is classified or moved, no directory is
created (empty effect trace), and no report is produced. -/
theorem C9_thm (rules : List Rule) (settings : Settings) (envOf : Str → MoveEnv) :
    runSession [] rules settings envOf = .ok ⟨[], [], [], [], true, false⟩ := rfl

/-- Claim C5: with overwrite set, or with no file at the destination, the
final path is exactly `destination_dir/source_filename`; otherwise it is
`destination_dir/{stem}_{timestamp}{ext}` with the 15-character
`YYYYMMDD_HHMMSS` timestamp (underscore at position 8) taken from the
resolution-time clock; the actual move targets that resolved path. -/
theorem C5_thm (destDir srcName : Str) (overwrite destEx : Bool) (t : DateTime)
    (env : MoveEnv) :
    ((overwrite = true ∨ destEx = false) →
      resolveDest destDir srcName overwrite destEx t = joinPath destDir srcName) ∧
    (destEx = true → overwrite = false →
      resolveDest destDir srcName overwrite destEx t =
        joinPath destDir (pyStem srcName ++ 95 :: fmtTs t ++ pySuffix srcName) ∧
      (fmtTs t).length = 15 ∧ (fmtTs t).get? 8 = some 95) ∧
    (env.mkdirFails = false → env.moveFails = false →
      move_file srcName destDir overwrite false env =
        .ok ⟨true, okMsg srcName destDir,
          [Effect.mkdir destDir,
           Effect.move srcName
             (resolveDest destDir srcName overwrite env.destExists env.now)]⟩) := by
  refine ⟨?_, ?_, ?_⟩
  · rintro (h | h) <;> subst h <;> simp [resolveDest]
  · intro h1 h2
    subst h1; subst h2
    refine ⟨by simp [resolveDest], rfl, rfl⟩
  · intro h1 h2
    simp [move_file, h1, h2]

/-- Witness for C5 at a concrete collision. -/
theorem C5_wit :
    resolveDest (strCodes "docs") (strCodes "report.txt") false true t0 =
      joinPath (strCodes "docs")
        (pyStem (strCodes "report.txt") ++ 95 :: fmtTs t0 ++
          pySuffix (strCodes "report.txt")) ∧
    joinPath (strCodes "docs")
        (pyStem (strCodes "report.txt") ++ 95 :: fmtTs t0 ++
          pySuffix (strCodes "report.txt")) =
      strCodes "docs/report_20250102_030405.txt" := by
  refine ⟨((C5_thm (strCodes "docs") (strCodes "report.txt") false true t0 envOk).2.1
    rfl rfl).1, ?_⟩
  decide

/-- Claim C1 counterexample: in dry-run mode the destination directory IS
created — `mkdir` runs before the dry-run check — so the effect trace of a
dry-run move is not empty, refuting "no destination directories are
created". -/
theorem C1_cex :
    moveEffects (move_file (strCodes "a.txt") (strCodes "docs") false true envOk) =
      [Effect.mkdir (strCodes "docs")] ∧
    moveEffects (move_file (strCodes "a.txt") (strCodes "docs") false true envOk) ≠
      [] := by
  decide

/-- Claim C1 (amended): with dry_run=true (and the mkdir call itself not
failing) the move operation performs no file relocation — the effect trace
holds no move, so the source remains in place — and returns success with the
simulated-move message; the destination directory, however, is created. -/
theorem C1_thm (src destDir : Str) (overwrite : Bool) (env : MoveEnv)
    (h : env.mkdirFails = false) :
    move_file src destDir overwrite true env =
      .ok ⟨true, dryRunMsg src destDir, [Effect.mkdir destDir]⟩ := by
  simp [move_file, h]

/-- Witness for the amended C1. -/
theorem C1_wit :
    move_file (strCodes "a.txt") (strCodes "docs") false true envOk =
      .ok ⟨true, dryRunMsg (strCodes "a.txt") (strCodes "docs"),
        [Effect.mkdir (strCodes "docs")]⟩ :=
  C1_thm (strCodes "a.txt") (strCodes "docs") false envOk rfl

/-- Claim C7: a rule with an empty pattern list, or with a type other than
"extension"/"prefix", never matches: classification silently skips it and
continues with the remaining rules. -/
theorem C7_thm (filename : Str) (r : Rule) (rest : List Rule)
    (h : r.patterns = [] ∨
      (r.type ≠ strCodes "extension" ∧ r.type ≠ strCodes "prefix")) :
    classify_file filename (r :: rest) = classify_file filename rest := by
  have hm := ruleMatches_false_of (lower filename) (lower (pyStem filename))
    (lower (pySuffix filename)) r h
  simp [classify_file, classifyGo, hm]

/-- Witness for C7: an empty-pattern rule and a `regex`-typed rule are both
skipped. -/
theorem C7_wit :
    classify_file (strCodes "a.txt") [emptyPatRule] =
      classify_file (strCodes "a.txt") [] ∧
    classify_file (strCodes "a.txt") [unknownTypeRule] =
      classify_file (strCodes "a.txt") [] :=
  ⟨C7_thm _ emptyPatRule [] (Or.inl rfl),
   C7_thm _ unknownTypeRule [] (Or.inr (by decide))⟩

/-- Claim C6: classification returns the output folder and name of the first
matching rule in list order; in particular `report.txt` against
`[{extension, [".txt"], -> docs}, {prefix, ["report"], -> reports}]` goes to
"docs". -/
theorem C6_thm :
    (∀ (filename : Str) (rules : List Rule),
      classify_file filename rules =
        (rules.find? (ruleMatchesFile filename)).map
          (fun r => (r.output_folder, r.name))) ∧
    classify_file (strCodes "report.txt") [c6r1, c6r2] =
      some (strCodes "docs", strCodes "r1") := by
  constructor
  · intro filename rules
    unfold classify_file ruleMatchesFile
    exact classifyGo_eq_find _ _ _ rules
  · decide

/-- `stats[k] += 1` raises the total by one. -/
theorem incr_total (stats : List (Str × Nat)) (k : Str) :
    reportTotal (incr stats k) = reportTotal stats + 1 := by
  induction stats with
  | nil => simp [incr, reportTotal]
  | cons p rest ih =>
    obtain ⟨k', v⟩ := p
    simp only [incr]
    split_ifs with h
    · simp [reportTotal]
      omega
    · simp only [reportTotal, List.map_cons, List.sum_cons] at ih ⊢
      omega

/-- One loop iteration appends exactly its file to the processed list, adds
exactly one to `stats`-total-plus-error-count, and every new move effect has
that file as its source. -/
theorem stepFile_inv {rules : List Rule} {settings : Settings}
    {envOf : Str → MoveEnv} {st st' : SessionOutcome} {f : Str}
    (h : stepFile rules settings envOf st f = .ok st') :
    st'.processed = st.processed ++ [f] ∧
    (∀ s d, Effect.move s d ∈ st'.effects → Effect.move s d ∈ st.effects ∨ s = f) ∧
    reportTotal st'.stats + st'.errors.length =
      reportTotal st.stats + st.errors.length + 1 := by
  unfold stepFile at h
  cases hmv : move_file f (classifiedFolder rules settings f) settings.overwrite
      settings.dry_run (envOf f) with
  | error e => rw [hmv] at h; cases h
  | ok r =>
    rw [hmv] at h
    have hre : ∀ s d, Effect.move s d ∈ r.effects → s = f := by
      intro s d hm
      unfold move_file at hmv
      split at hmv
      · cases hmv
      · split at hmv
        · cases hmv; simp at hm
        · split at hmv
          · cases hmv; simp at hm
          · cases hmv
            simp only [List.mem_cons, List.mem_singleton] at hm
            rcases hm with hm | hm | hm
            · cases hm
            · cases hm; rfl
            · cases hm
    dsimp only at h
    by_cases hrs : r.success = true
    · rw [if_pos hrs] at h
      injection h with h
      subst h
      refine ⟨rfl, ?_, ?_⟩
      · intro s d hm
        rcases List.mem_append.mp hm with hm | hm
        · exact Or.inl hm
        · exact Or.inr (hre s d hm)
      · simp [incr_total]
        omega
    · rw [if_neg hrs] at h
      injection h with h
      subst h
      refine ⟨rfl, ?_, ?_⟩
      · intro s d hm
        rcases List.mem_append.mp hm with hm | hm
        · exact Or.inl hm
        · exact Or.inr (hre s d hm)
      · simp
        omega

/-- Loop invariant over a whole file list. -/
theorem runFiles_inv {rules : List Rule} {settings : Settings}
    {envOf : Str → MoveEnv} {fs : List Str} {st st' : SessionOutcome}
    (h : runFiles rules settings envOf fs st = .ok st') :
    st'.processed = st.processed ++ fs ∧
    (∀ s d, Effect.move s d ∈ st'.effects → Effect.move s d ∈ st.effects ∨ s ∈ fs) ∧
    reportTotal st'.stats + st'.errors.length =
      reportTotal st.stats + st.errors.length + fs.length := by
  induction fs generalizing st with
  | nil =>
    unfold runFiles at h
    cases h
    simp
  | cons f fs ih =>
    unfold runFiles at h
    cases hs : stepFile rules settings envOf st f with
    | error e => rw [hs] at h; cases h
    | ok st1 =>
      rw [hs] at h
      obtain ⟨h1, h2, h3⟩ := ih h
      obtain ⟨g1, g2, g3⟩ := stepFile_inv hs
      refine ⟨by rw [h1, g1]; simp, ?_, ?_⟩
      · intro s d hm
        rcases h2 s d hm with hm' | hm'
        · rcases g2 s d hm' with hm'' | hm''
          · exact Or.inl hm''
          · exact Or.inr (by simp [hm''])
        · exact Or.inr (by simp [hm'])
      · rw [h3, g3]
        simp
        omega

/-- With a never-failing `mkdir`, one loop iteration cannot raise. -/
theorem stepFile_total (rules : List Rule) (settings : Settings)
    (envOf : Str → MoveEnv) (st : SessionOutcome) (f : Str)
    (h : (envOf f).mkdirFails = false) :
    ∃ st', stepFile rules settings envOf st f = .ok st' := by
  obtain ⟨r, hr⟩ : ∃ r, move_file f (classifiedFolder rules settings f)
      settings.overwrite settings.dry_run (envOf f) = .ok r := by
    unfold move_file
    rw [h]
    cases settings.dry_run <;> cases (envOf f).moveFails <;> exact ⟨_, rfl⟩
  unfold stepFile
  rw [hr]
  dsimp only
  by_cases hrs : r.success = true
  · rw [if_pos hrs]
    exact ⟨_, rfl⟩
  · rw [if_neg hrs]
    exact ⟨_, rfl⟩

/-- With a never-failing `mkdir`, the whole loop cannot raise. -/
theorem runFiles_total (rules : List Rule) (settings : Settings)
    (envOf : Str → MoveEnv) (h : ∀ f, (envOf f).mkdirFails = false)
    (fs : List Str) : ∀ st, ∃ st', runFiles rules settings envOf fs st = .ok st' := by
  induction fs with
  | nil => intro st; exact ⟨st, rfl⟩
  | cons f fs ih =>
    intro st
    obtain ⟨st1, hs⟩ := stepFile_total rules settings envOf st f (h f)
    obtain ⟨st', hr⟩ := ih st1
    refine ⟨st', ?_⟩
    unfold runFiles
    rw [hs]
    exact hr

/-- Claim C2 counterexample: a `mkdir` failure on the first file is an
uncaught exception — the session aborts with the raw OS error instead of
recording a per-file failure and continuing with `b.txt`. -/
theorem C2_cex :
    sessionError (runSession [strCodes "a.txt", strCodes "b.txt"] [] settings0
      (fun _ => envMk)) = some (strCodes "Permission denied") := by
  decide

/-- Claim C2 (amended): a failure during file relocation (`shutil.move`) is
recoverable — `move_file` returns a failure outcome, the loop records its
message in the errors list and moves on — but only relocation failures are:
when no `mkdir` call fails, the session completes and processes every file,
whereas a directory-creation failure raises (see the counterexample). -/
theorem C2_thm :
    (∀ (src destDir : Str) (overwrite : Bool) (env : MoveEnv),
      env.mkdirFails = false → env.moveFails = true →
      move_file src destDir overwrite false env =
        .ok ⟨false, errMsg src env.moveErr, [Effect.mkdir destDir]⟩) ∧
    (∀ (st : SessionOutcome) (f : Str) (rules : List Rule) (settings : Settings)
        (envOf : Str → MoveEnv),
      (envOf f).mkdirFails = false → (envOf f).moveFails = true →
      settings.dry_run = false →
      stepFile rules settings envOf st f =
        .ok { st with
              errors := st.errors ++ [errMsg f (envOf f).moveErr],
              processed := st.processed ++ [f],
              effects := st.effects ++
                [Effect.mkdir (classifiedFolder rules settings f)] }) ∧
    (∀ (files : List Str) (rules : List Rule) (settings : Settings)
        (envOf : Str → MoveEnv),
      (∀ f, (envOf f).mkdirFails = false) →
      ∃ out, runSession files rules settings envOf = .ok out ∧
        out.processed = if files = [] then [] else sortStr files) := by
  refine ⟨?_, ?_, ?_⟩
  · intro src destDir overwrite env h1 h2
    simp [move_file, h1, h2]
  · intro st f rules settings envOf h1 h2 h3
    simp [stepFile, move_file, h1, h2, h3]
  · intro files rules settings envOf hmk
    by_cases hf : files = []
    · subst hf
      exact ⟨_, rfl, by simp⟩
    · obtain ⟨st', hrun⟩ := runFiles_total rules settings envOf hmk (sortStr files)
        ⟨[], [], [], [], false, false⟩
      refine ⟨{ st' with reported := true }, ?_, ?_⟩
      · unfold runSession
        rw [if_neg hf, hrun]
      · rw [if_neg hf]
        have hp := (runFiles_inv hrun).1
        simpa using hp

/-- Witness for the amended C2: a concrete failed relocation, and a concrete
two-file session that completes despite it. -/
theorem C2_wit :
    move_file (strCodes "a.txt") (strCodes "docs") false false envMv =
      .ok ⟨false, errMsg (strCodes "a.txt") (strCodes "No space"),
        [Effect.mkdir (strCodes "docs")]⟩ ∧
    (∃ out, runSession [strCodes "b.txt", strCodes "a.txt"] [] settings0
        (fun _ => envMv) = .ok out ∧
      out.processed =
        if ([strCodes "b.txt", strCodes "a.txt"] : List Str) = [] then []
        else sortStr [strCodes "b.txt", strCodes "a.txt"]) := by
  constructor
  · exact C2_thm.1 (strCodes "a.txt") (strCodes "docs") false envMv rfl rfl
  · exact C2_thm.2.2 [strCodes "b.txt", strCodes "a.txt"] [] settings0
      (fun _ => envMv) (fun _ => rfl)

/-- Claim C3, evaluated at the failing input: a session of three files in
which only `b.txt` fails to move.  The loop truly processed 3 files, 2
successfully and 1 with an error, yet `print_report` displays total = 2
(`sum(stats.values())`, errors not added) and success = 1 (`total -
len(errors)`), instead of the (3, 2, 1) the spec — and `main`'s own
`success_count`/`fail_count` — require; only the failure count is right. -/
theorem C3_bug :
    (getOutcome sessionC3).processed.length = 3 ∧
    (getOutcome sessionC3).errors.length = 1 ∧
    reportTotal (getOutcome sessionC3).stats = 2 ∧
    reportNumbers (getOutcome sessionC3).stats (getOutcome sessionC3).errors =
      (2, 1, 1) ∧
    reportNumbers (getOutcome sessionC3).stats (getOutcome sessionC3).errors ≠
      (3, 2, 1) := by
  decide

/-- `rfindDot` returns `none` exactly when the string has no dot. -/
theorem rfindDot_none_iff (name : Str) : rfindDot name = none ↔ 46 ∉ name := by
  induction name with
  | nil => simp [rfindDot]
  | cons c cs ih =>
    simp only [rfindDot]
    cases h : rfindDot cs with
    | some i =>
      have hcs : 46 ∈ cs := by
        by_contra hc
        exact absurd (ih.mpr hc) (by simp [h])
      simp [List.mem_cons, hcs]
    | none =>
      have hcs : 46 ∉ cs := ih.mp h
      by_cases hc : c = 46
      · subst hc
        simp
      · simp [hc, hcs, List.mem_cons, eq_comm]

/-- `rfindDot` returns the index of the last dot. -/
theorem rfindDot_last (name : Str) : ∀ i, rfindDot name = some i →
    i < name.length ∧ name.get? i = some 46 ∧
    ∀ j, i < j → name.get? j ≠ some 46 := by
  induction name with
  | nil => intro i hi; cases hi
  | cons c cs ih =>
    intro i hi
    simp only [rfindDot] at hi
    cases h : rfindDot cs with
    | some i' =>
      rw [h] at hi
      dsimp only at hi
      injection hi with hi
      subst hi
      obtain ⟨hlt, hget, hafter⟩ := ih i' h
      refine ⟨by simp; omega, by simpa using hget, ?_⟩
      intro j hj hbad
      cases j with
      | zero => omega
      | succ j' =>
        rw [List.get?_cons_succ] at hbad
        exact hafter j' (by omega) hbad
    | none =>
      rw [h] at hi
      dsimp only at hi
      by_cases hc : c = 46
      · rw [if_pos hc] at hi
        injection hi with hi
        subst hi
        have hcs : 46 ∉ cs := (rfindDot_none_iff cs).mp h
        refine ⟨by simp, by simp [hc], ?_⟩
        intro j hj hbad
        cases j with
        | zero => omega
        | succ j' =>
          rw [List.get?_cons_succ] at hbad
          exact hcs (List.get?_mem hbad)
      · rw [if_neg hc] at hi
        cases hi

/-- Claim C4 counterexample: for `.bashrc` the claim's rule ("substring from
the last dot, empty only when there is no dot") yields extension `.bashrc`
and stem `""`, but the code (pathlib semantics) yields an empty extension and
stem `.bashrc`. -/
theorem C4_cex :
    specExtC4 (strCodes ".bashrc") = strCodes ".bashrc" ∧
    lower (pySuffix (strCodes ".bashrc")) = [] ∧
    lower (pyStem (strCodes ".bashrc")) = strCodes ".bashrc" ∧
    specExtC4 (strCodes ".bashrc") ≠ lower (pySuffix (strCodes ".bashrc")) := by
  decide

/-- Claim C4 (amended): the extension used for matching is the lower-cased
substring from the last `.` (dot included) provided that dot is neither the
first nor the last character, and the stem is the lower-cased prefix before
it; when the filename has no dot, or its last dot is leading (`.bashrc`) or
trailing, the extension is empty and the stem is the whole lower-cased
filename. -/
theorem C4_thm (name : Str) :
    (46 ∉ name →
      lower (pySuffix name) = [] ∧ lower (pyStem name) = lower name) ∧
    (∀ i, rfindDot name = some i →
      (i < name.length ∧ name.get? i = some 46 ∧
        ∀ j, i < j → name.get? j ≠ some 46) ∧
      (0 < i → i + 1 < name.length →
        lower (pySuffix name) = lower (name.drop i) ∧
        lower (pyStem name) = lower (name.take i)) ∧
      ((i = 0 ∨ i + 1 = name.length) →
        lower (pySuffix name) = [] ∧ lower (pyStem name) = lower name)) := by
  constructor
  · intro h
    have h0 : rfindDot name = none := (rfindDot_none_iff name).mpr h
    simp [pySuffix, pyStem, h0, lower]
  · intro i hi
    refine ⟨rfindDot_last name i hi, ?_, ?_⟩
    · intro h1 h2
      simp [pySuffix, pyStem, hi, h1, h2]
    · intro hb
      have hnot : ¬(0 < i ∧ i + 1 < name.length) := by
        rcases hb with hb | hb <;> omega
      simp [pySuffix, pyStem, hi, hnot, lower]

/-- Witness for the amended C4 at `report.txt` (interior dot at index 6) and
`.bashrc` (leading dot). -/
theorem C4_wit :
    (lower (pySuffix (strCodes "report.txt")) =
        lower (List.drop 6 (strCodes "report.txt")) ∧
      lower (pyStem (strCodes "report.txt")) =
        lower (List.take 6 (strCodes "report.txt"))) ∧
    (lower (pySuffix (strCodes ".bashrc")) = [] ∧
      lower (pyStem (strCodes ".bashrc")) = lower (strCodes ".bashrc")) := by
  constructor
  · exact ((C4_thm (strCodes "report.txt")).2 6 (by decide)).2.1 (by decide) (by decide)
  · exact ((C4_thm (strCodes ".bashrc")).2 0 (by decide)).2.2 (Or.inl rfl)

/-- A case alteration leaves the lower-cased string unchanged. -/
theorem lower_map_of_caseEq {f : Nat → Nat} (hf : CaseEq f) (l : Str) :
    lower (l.map f) = lower l := by
  induction l with
  | nil => rfl
  | cons c cs ih =>
    show lowerCode (f c) :: lower (cs.map f) = lowerCode c :: lower cs
    rw [hf c, ih]

/-- A case alteration preserves being the dot (code point 46). -/
theorem dot_iff_of_caseEq {f : Nat → Nat} (hf : CaseEq f) (n : Nat) :
    f n = 46 ↔ n = 46 := by
  have h := hf n
  simp only [lowerCode] at h
  constructor
  · intro he
    rw [he] at h
    split_ifs at h <;> omega
  · intro he
    subst he
    split_ifs at h <;> omega

/-- A case alteration preserves the position of the last dot. -/
theorem rfindDot_map_of_caseEq {f : Nat → Nat} (hf : CaseEq f) (l : Str) :
    rfindDot (l.map f) = rfindDot l := by
  induction l with
  | nil => rfl
  | cons c cs ih =>
    simp only [List.map_cons, rfindDot, ih]
    cases h : rfindDot cs with
    | some i => rfl
    | none => simp [dot_iff_of_caseEq hf c]

/-- A case alteration commutes with taking the extension. -/
theorem pySuffix_map_of_caseEq {f : Nat → Nat} (hf : CaseEq f) (l : Str) :
    pySuffix (l.map f) = (pySuffix l).map f := by
  simp only [pySuffix, rfindDot_map_of_caseEq hf, List.length_map]
  cases h : rfindDot l with
  | none => simp
  | some i =>
    dsimp only
    split_ifs with hc
    · exact (List.map_drop f l i).symm
    · rfl

/-- A case alteration commutes with taking the stem. -/
theorem pyStem_map_of_caseEq {f : Nat → Nat} (hf : CaseEq f) (l : Str) :
    pyStem (l.map f) = (pyStem l).map f := by
  simp only [pyStem, rfindDot_map_of_caseEq hf, List.length_map]
  cases h : rfindDot l with
  | none => rfl
  | some i =>
    dsimp only
    split_ifs with hc
    · exact (List.map_take f l i).symm
    · rfl

/-- Rule lists differing only in pattern case classify identically. -/
theorem classifyGo_congr_rules (a b c : Str) {rules rules' : List Rule}
    (hr : RulesCaseVariant rules rules') :
    classifyGo a b c rules' = classifyGo a b c rules := by
  induction hr with
  | nil => rfl
  | @cons r r' rs rs' hrel hrest ih =>
    obtain ⟨hn, ht, ho, hp⟩ := hrel
    simp only [classifyGo]
    have hm : ruleMatches a b c r' = ruleMatches a b c r := by
      unfold ruleMatches
      rw [← ht, ← hp]
    rw [hm, ← hn, ← ho, ih]

/-- Upper-casing is a case alteration. -/
theorem caseEq_upperCode : CaseEq upperCode := by
  intro n
  simp only [upperCode, lowerCode]
  split_ifs <;> omega

/-- Claim C8: classification is case-insensitive — altering the case of the
filename (any character map that is the identity up to case) and/or of the
rule patterns leaves the classification result unchanged. -/
theorem C8_thm (f : Nat → Nat) (filename : Str) (rules rules' : List Rule)
    (hf : CaseEq f) (hr : RulesCaseVariant rules rules') :
    classify_file (filename.map f) rules' = classify_file filename rules := by
  unfold classify_file
  rw [pySuffix_map_of_caseEq hf, pyStem_map_of_caseEq hf,
      lower_map_of_caseEq hf filename, lower_map_of_caseEq hf (pyStem filename),
      lower_map_of_caseEq hf (pySuffix filename)]
  exact classifyGo_congr_rules _ _ _ hr

/-- Witness for C8: pattern `.JPG` vs `.jpg` and file `PHOTO.JPG` vs
`photo.jpg` classify alike, and the match indeed fires. -/
theorem C8_wit :
    classify_file (strCodes "PHOTO.JPG") [rJPG] =
      classify_file (strCodes "photo.jpg") [rjpg] ∧
    classify_file (strCodes "photo.jpg") [rjpg] =
      some (strCodes "images", strCodes "r") := by
  have hm : (strCodes "photo.jpg").map upperCode = strCodes "PHOTO.JPG" := by decide
  have hr : RulesCaseVariant [rjpg] [rJPG] := by
    unfold RulesCaseVariant
    exact List.Forall₂.cons ⟨rfl, rfl, rfl, by decide⟩ List.Forall₂.nil
  have h := C8_thm upperCode (strCodes "photo.jpg") [rjpg] [rJPG] caseEq_upperCode hr
  rw [hm] at h
  exact ⟨h, by decide⟩

/-- Membership in an insertion step of the sort. -/
theorem mem_insertSorted (x y : Str) (l : List Str) :
    y ∈ insertSorted x l ↔ y = x ∨ y ∈ l := by
  induction l with
  | nil => simp [insertSorted]
  | cons z zs ih =>
    simp only [insertSorted]
    split_ifs <;> simp only [List.mem_cons, ih] <;> tauto

/-- Sorting does not change membership. -/
theorem mem_sortStr (y : Str) (l : List Str) : y ∈ sortStr l ↔ y ∈ l := by
  induction l with
  | nil => simp [sortStr]
  | cons z zs ih =>
    show y ∈ insertSorted z (sortStr zs) ↔ y ∈ z :: zs
    rw [mem_insertSorted]
    simp only [List.mem_cons]
    rw [ih]

/-- A non-regular-file entry, or one named in `SKIP_FILES`, is not collected
(entry names in one directory listing being distinct). -/
theorem not_mem_collectFiles (entries : List DirEntry) (ent : DirEntry)
    (hnd : (entries.map (fun e => e.name)).Nodup) (hm : ent ∈ entries)
    (h : ent.isFile = false ∨ ent.name ∈ SKIP_FILES) :
    ent.name ∉ collectFiles entries := by
  intro hc
  unfold collectFiles at hc
  obtain ⟨e', he', hname⟩ := List.mem_map.mp hc
  obtain ⟨he'mem, hp⟩ := List.mem_filter.mp he'
  have heq : e' = ent := List.inj_on_of_nodup_map hnd he'mem hm hname
  subst heq
  rw [Bool.and_eq_true] at hp
  obtain ⟨hpf, hps⟩ := hp
  rcases h with h | h
  · rw [h] at hpf
    cases hpf
  · rw [Bool.not_eq_true'] at hps
    have hcontains : SKIP_FILES.contains e'.name = true := List.elem_iff.mpr h
    rw [hcontains] at hps
    exact absurd hps (by decide)

/-- Claim C10: a directory entry that is not a regular file, or whose name is
`organize.py` or `config.json`, never enters the candidate list; consequently
the session never processes it, never emits a move with it as source, and
every stats/error count is accounted for by the candidate files alone. -/
theorem C10_thm (entries : List DirEntry) (ent : DirEntry) (rules : List Rule)
    (settings : Settings) (envOf : Str → MoveEnv)
    (hnd : (entries.map (fun e => e.name)).Nodup) (hm : ent ∈ entries)
    (h : ent.isFile = false ∨ ent.name ∈ SKIP_FILES) :
    ent.name ∉ collectFiles entries ∧
    ∀ out, runSession (collectFiles entries) rules settings envOf = .ok out →
      ent.name ∉ out.processed ∧
      (∀ s d, Effect.move s d ∈ out.effects → s ≠ ent.name) ∧
      reportTotal out.stats + out.errors.length = out.processed.length := by
  have hnc := not_mem_collectFiles entries ent hnd hm h
  refine ⟨hnc, ?_⟩
  intro out hrun
  unfold runSession at hrun
  by_cases hemp : collectFiles entries = []
  · rw [if_pos hemp] at hrun
    injection hrun with hrun
    subst hrun
    refine ⟨by simp, by simp, by simp [reportTotal]⟩
  · rw [if_neg hemp] at hrun
    cases hr : runFiles rules settings envOf (sortStr (collectFiles entries))
        ⟨[], [], [], [], false, false⟩ with
    | error e => rw [hr] at hrun; cases hrun
    | ok st =>
      rw [hr] at hrun
      dsimp only at hrun
      injection hrun with hrun
      subst hrun
      obtain ⟨h1, h2, h3⟩ := runFiles_inv hr
      refine ⟨?_, ?_, ?_⟩
      · show ent.name ∉ st.processed
        rw [h1]
        simp only [List.nil_append]
        rw [mem_sortStr]
        exact fun hx => hnc hx
      · intro s d hme
        rcases h2 s d hme with hin | hin
        · simp at hin
        · rw [mem_sortStr] at hin
          intro hs
          rw [hs] at hin
          exact hnc hin
      · show reportTotal st.stats + st.errors.length = st.processed.length
        rw [h3, h1]
        simp [reportTotal]

/-- Witness for C10: in a directory holding `organize.py`, `a.txt` and a
subdirectory `sub`, the script file is neither collected nor processed. -/
theorem C10_wit :
    strCodes "organize.py" ∉ collectFiles entsC10 ∧
    strCodes "organize.py" ∉
      (getOutcome (runSession (collectFiles entsC10) [] settings0
        (fun _ => envOk))).processed := by
  have h := C10_thm entsC10 ⟨strCodes "organize.py", true⟩ [] settings0
    (fun _ => envOk) (by decide) (by decide) (Or.inr (by decide))
  refine ⟨h.1, ?_⟩
  have hrun : runSession (collectFiles entsC10) [] settings0 (fun _ => envOk) =
      .ok (getOutcome (runSession (collectFiles entsC10) [] settings0
        (fun _ => envOk))) := by
    rfl
  exact (h.2 _ hrun).1
